import Mathlib

/-!
# Verification of the scrq job-queue service

A shallow embedding of the core of the `scrq` asynchronous web-scraping
service (Go), together with theorems settling the specification claims.

Conventions of the embedding:
* Machine integers become `Int` (timestamps are Unix seconds unless a
  definition says otherwise; the rate limiter works in nanoseconds).
* Go maps become association lists whose `insert` removes any previous
  binding for the key, so lookup/iteration agree with map semantics.
* Functions that read the wall clock take an explicit `now` argument.
* Fallible operations return `Option`.
-/

namespace Scrq

/-- Job status enumeration (`JobStatus` constants in the source). -/
inductive JobStatus where
  | queued
  | running
  | succeeded
  | failed
  | canceled
  | retrying
deriving DecidableEq, Repr

/-- `NotifyConfig`: notification settings for a job. -/
structure NotifyConfig where
  webhookURL : String
  webhookSecret : String
  webSocket : Bool
deriving DecidableEq, Repr

/-- `RetryConfig`: retry settings carried in a job request.  The source also
carries a float64 `BackoffFactor`; this embedding covers requests that leave
it unset, so the default factor 2.0 applies (see `backoffLoop`). -/
structure RetryConfig where
  maxRetries : Int
  retryDelay : Int
deriving DecidableEq, Repr

/-- `JobRequest`: the immutable request payload of a job (fields the queue
core reads; transport-only fields such as headers and cookies are omitted). -/
structure JobRequest where
  url : String
  engine : String
  timeout : Int
  script : String
  proxy : String
  notify : Option NotifyConfig
  retry : Option RetryConfig
  idempotencyKey : String
  priority : Int
  resultTTL : Int
deriving DecidableEq, Repr

/-- `Job`: the central record.  `result` is the opaque success value
(`interface\x7b\x7d` in the source), modelled as an optional string. -/
structure Job where
  id : String
  status : JobStatus
  progress : Int
  message : String
  request : JobRequest
  result : Option String
  error : String
  lastError : String
  createdAt : Int
  updatedAt : Int
  startedAt : Int
  completedAt : Int
  expiresAt : Int
  notify : Option NotifyConfig
  retryCount : Int
  maxRetries : Int
  nextRetryAt : Int
  idempotencyKey : String
  priority : Int
  timeout : Int
deriving DecidableEq, Repr

/-- `DefaultJobTimeout` in seconds. -/
def defaultJobTimeout : Int := 30

/-- `DefaultMaxRetries`. -/
def defaultMaxRetries : Int := 3

/-- `DefaultResultTTL` (7 days) in seconds. -/
def defaultResultTTL : Int := 7 * 24 * 3600

/-- `DefaultRetryDelay` (5 s) in seconds. -/
def defaultRetryDelay : Int := 5

/-- `MaxRetryDelay` (5 min) in seconds. -/
def maxRetryDelay : Int := 300

/-- `NewJob`: build a job from a request.  The generated id and the clock are
explicit arguments.  Mirrors the defaulting of timeout, max retries and
result TTL from the source. -/
def newJob (req : JobRequest) (id : String) (now : Int) : Job :=
  let timeout := if req.timeout ≤ 0 then defaultJobTimeout else req.timeout
  let maxRetries :=
    match req.retry with
    | some c => if 0 < c.maxRetries then c.maxRetries else defaultMaxRetries
    | none => defaultMaxRetries
  let resultTTL := if 0 < req.resultTTL then req.resultTTL else defaultResultTTL
  { id := id
    status := .queued
    progress := 0
    message := ""
    request := req
    result := none
    error := ""
    lastError := ""
    createdAt := now
    updatedAt := now
    startedAt := 0
    completedAt := 0
    expiresAt := now + resultTTL
    notify := req.notify
    retryCount := 0
    maxRetries := maxRetries
    nextRetryAt := 0
    idempotencyKey := req.idempotencyKey
    priority := req.priority
    timeout := timeout }

/-- `Job.SetStatus`: update the status, stamping `startedAt` on the first
transition to running and `completedAt` on terminal states. -/
def Job.setStatus (j : Job) (status : JobStatus) (now : Int) : Job :=
  let j := { j with status := status, updatedAt := now }
  let j :=
    if status = .running ∧ j.startedAt = 0 then { j with startedAt := now } else j
  if status = .succeeded ∨ status = .failed ∨ status = .canceled then
    { j with completedAt := now }
  else j

/-- `Job.SetProgress`. -/
def Job.setProgress (j : Job) (progress : Int) (message : String) (now : Int) : Job :=
  { j with progress := progress, message := message, updatedAt := now }

/-- `Job.SetResult`: store the result and mark the job succeeded. -/
def Job.setResult (j : Job) (result : String) (now : Int) : Job :=
  { j with result := some result, status := .succeeded, progress := 100,
           completedAt := now, updatedAt := now }

/-- `Job.SetError`: store the error and mark the job failed. -/
def Job.setError (j : Job) (err : String) (now : Int) : Job :=
  { j with error := err, lastError := err, status := .failed,
           completedAt := now, updatedAt := now }

/-- `Job.CanRetry`. -/
def Job.canRetry (j : Job) : Bool :=
  j.retryCount < j.maxRetries

/-- The delay-doubling loop of `Job.PrepareRetry`
(`for i := 1; i < retryCount; i++ \x7b delay *= factor \x7d`), specialised to the
default backoff factor 2.0: at the magnitudes reached here the float64
multiplication by 2.0 is exact, so the loop is exact doubling.  The first
argument is the number of iterations (`retryCount - 1`). -/
def backoffLoop : Nat → Int → Int
  | 0, delay => delay
  | k + 1, delay => backoffLoop k (delay * 2)

/-- `Job.PrepareRetry`: increment the retry count, set status retrying and
schedule `nextRetryAt` with exponential backoff capped at `maxRetryDelay`.
Delays are whole seconds on this path, so the embedding works in seconds. -/
def Job.prepareRetry (j : Job) (now : Int) : Job :=
  let retryCount := j.retryCount + 1
  let baseDelay :=
    match j.request.retry with
    | some c => if 0 < c.retryDelay then c.retryDelay else defaultRetryDelay
    | none => defaultRetryDelay
  let delay := backoffLoop (retryCount - 1).toNat baseDelay
  let delay := if maxRetryDelay < delay then maxRetryDelay else delay
  { j with retryCount := retryCount, status := .retrying,
           nextRetryAt := now + delay, updatedAt := now }

/-- `Job.IsExpired`: a job with `expiresAt = 0` never expires; otherwise it is
expired once `now` is strictly past `expiresAt`. -/
def Job.isExpired (j : Job) (now : Int) : Bool :=
  if j.expiresAt = 0 then false else decide (j.expiresAt < now)

/-! ## Association-list model of Go maps -/

/-- Lookup in a Go map modelled as an association list. -/
def mapLookup {α : Type} (m : List (String × α)) (k : String) : Option α :=
  (m.find? (fun p => p.1 == k)).map Prod.snd

/-- Insertion into a Go map: any previous binding for the key is replaced. -/
def mapInsert {α : Type} (m : List (String × α)) (k : String) (v : α) :
    List (String × α) :=
  (k, v) :: m.filter (fun p => p.1 ≠ k)

/-- Deletion from a Go map. -/
def mapDelete {α : Type} (m : List (String × α)) (k : String) :
    List (String × α) :=
  m.filter (fun p => p.1 ≠ k)

/-! ## JobStore (`internal/queue/store.go`) -/

/-- `Store`: jobs by id, plus the idempotency-key secondary index. -/
structure Store where
  jobs : List (String × Job)
  idempotencyMap : List (String × String)
deriving DecidableEq, Repr

/-- `NewStore` (without the background cleanup goroutine, which is modelled
by explicit calls to `Store.cleanupExpired`). -/
def Store.empty : Store :=
  { jobs := [], idempotencyMap := [] }

/-- `Store.Save`: stores the job under its id and, when the idempotency key
is non-empty, the key-to-id mapping.  The source returns a nil error
unconditionally: an existing job with the same id is silently replaced. -/
def Store.save (s : Store) (j : Job) : Store :=
  { jobs := mapInsert s.jobs j.id j
    idempotencyMap :=
      if j.idempotencyKey ≠ "" then
        mapInsert s.idempotencyMap j.idempotencyKey j.id
      else s.idempotencyMap }

/-- `Store.Get`: lookup by id; a missing or expired job is not found. -/
def Store.get (s : Store) (jobID : String) (now : Int) : Option Job :=
  match mapLookup s.jobs jobID with
  | none => none
  | some job => if job.isExpired now then none else some job

/-- `Store.GetByIdempotencyKey`: follow the secondary index, then the jobs
map; a missing or expired job is not found. -/
def Store.getByIdempotencyKey (s : Store) (key : String) (now : Int) :
    Option Job :=
  match mapLookup s.idempotencyMap key with
  | none => none
  | some jobID =>
    match mapLookup s.jobs jobID with
    | none => none
    | some job => if job.isExpired now then none else some job

/-- `Store.Update`: unconditional replace by id; fails only when the id is
absent. -/
def Store.update (s : Store) (j : Job) : Option Store :=
  match mapLookup s.jobs j.id with
  | none => none
  | some _ => some { s with jobs := mapInsert s.jobs j.id j }

/-- `Store.Delete`: removes the job.  The source does not touch the
idempotency map here. -/
def Store.delete (s : Store) (jobID : String) : Store :=
  { s with jobs := mapDelete s.jobs jobID }

/-- `Store.List`: returns all stored jobs, with no expiry filtering. -/
def Store.list (s : Store) : List Job :=
  s.jobs.map Prod.snd

/-- `Store.cleanupExpired`: the hourly sweep removing expired jobs; for each
removed job with a non-empty idempotency key, the mapping under that key is
removed as well. -/
def Store.cleanupExpired (s : Store) (now : Int) : Store :=
  { jobs := s.jobs.filter (fun p => !p.2.isExpired now)
    idempotencyMap := s.idempotencyMap.filter (fun p =>
      !(s.jobs.any (fun q =>
        q.2.isExpired now && q.2.idempotencyKey == p.1 && p.1 != ""))) }

/-! ## Events (`internal/queue/events.go`) -/

/-- `Event`: the value type published on the event hub. -/
structure Event where
  jobID : String
  status : JobStatus
  progress : Int
  message : String
deriving DecidableEq, Repr

/-! ## QueueManager (`internal/queue/manager.go`)

The manager composes the store with the JetStream broker and the event hub.
The broker and hub are modelled by their observable effects: `published` is
the ordered list of job payloads published to the stream, `events` the
ordered list of emitted events. -/

/-- Observable state of a `Manager`. -/
structure ManagerState where
  store : Store
  published : List Job
  events : List Event
deriving DecidableEq, Repr

/-- A manager over an empty store with nothing published or emitted. -/
def ManagerState.initial : ManagerState :=
  { store := Store.empty, published := [], events := [] }

/-- Acknowledgement outcome of one message delivery. -/
inductive Ack where
  | ack
  | nak
  | nakWithDelay (delaySeconds : Int)
deriving DecidableEq, Repr

/-- Outcome of one processor invocation (`processor.Process` returns either a
result value or an error). -/
inductive ProcOutcome where
  | success (result : String)
  | failure (err : String)
deriving DecidableEq, Repr

/-- `Manager.Enqueue`: save to the store, publish the payload, emit the
queued event.  Serialization and broker errors are external failures outside
this model. -/
def ManagerState.enqueue (m : ManagerState) (job : Job) : ManagerState :=
  { store := m.store.save job
    published := m.published ++ [job]
    events := m.events ++ [⟨job.id, job.status, 0, "Job queued"⟩] }

/-- `Manager.UpdateJob`: store update plus event emission; on a store error
no event is emitted. -/
def ManagerState.updateJob (m : ManagerState) (job : Job) : ManagerState :=
  match m.store.update job with
  | none => m
  | some s =>
    { m with store := s
             events := m.events ++ [⟨job.id, job.status, job.progress, job.message⟩] }

/-- `Manager.CancelJob`: only queued or running jobs can be canceled; the
canceled status is written back and an event emitted.  Returns the canceled
job, or `none` on the error paths. -/
def ManagerState.cancelJob (m : ManagerState) (jobID : String) (now : Int) :
    ManagerState × Option Job :=
  match m.store.get jobID now with
  | none => (m, none)
  | some job =>
    if job.status ≠ .queued ∧ job.status ≠ .running then (m, none)
    else
      let job := job.setStatus .canceled now
      match m.store.update job with
      | none => (m, none)
      | some s =>
        ({ store := s
           published := m.published
           events := m.events ++ [⟨job.id, job.status, 0, "Job canceled"⟩] },
         some job)

/-- `Manager.EnqueueWithIdempotency`: when the job carries a non-empty
idempotency key and the store already holds a live job for it, that job is
returned with the duplicate flag and nothing is saved, published or
emitted; otherwise the job is enqueued normally. -/
def ManagerState.enqueueWithIdempotency (m : ManagerState) (job : Job)
    (now : Int) : ManagerState × Job × Bool :=
  if job.idempotencyKey ≠ "" then
    match m.store.getByIdempotencyKey job.idempotencyKey now with
    | some existing => (m, existing, true)
    | none => (m.enqueue job, job, false)
  else (m.enqueue job, job, false)

/-- `Manager.processMessage`: one delivery of a job message.  The processor
invocation is summarised by `outcome`; its progress-callback store writes are
omitted (they only touch `progress`/`message`, which the terminal writes
below overwrite).  `cancelDuring` injects an external `CancelJob` at the
interleaving point while the processor runs; the worker's local `storedJob`
value is not re-read afterwards, exactly as in the source. -/
def ManagerState.processMessage (m : ManagerState) (msgJob : Job)
    (outcome : ProcOutcome) (cancelDuring : Bool) (now : Int) :
    ManagerState × Ack :=
  match m.store.get msgJob.id now with
  | none => (m, .nak)
  | some storedJob =>
    if storedJob.status = .canceled then (m, .ack)
    else if storedJob.status = .retrying ∧ 0 < storedJob.nextRetryAt ∧
        now < storedJob.nextRetryAt then
      (m, .nakWithDelay (storedJob.nextRetryAt - now))
    else
      let storedJob := (storedJob.setStatus .running now).setProgress 0
        "Processing started" now
      let m := m.updateJob storedJob
      let m := if cancelDuring then (m.cancelJob storedJob.id now).1 else m
      match outcome with
      | .success result =>
        (m.updateJob (storedJob.setResult result now), .ack)
      | .failure err =>
        if storedJob.canRetry then
          let storedJob := { storedJob with lastError := err }
          let storedJob := storedJob.prepareRetry now
          let m := m.updateJob storedJob
          let m := { m with events := m.events ++
            [Event.mk storedJob.id storedJob.status storedJob.progress
              ("Retrying (" ++ toString storedJob.retryCount ++ "/" ++
                toString storedJob.maxRetries ++ "): " ++ err)] }
          let m := { m with published := m.published ++ [storedJob] }
          (m, .ack)
        else
          (m.updateJob (storedJob.setError err now), .ack)

/-! ## ScrapeProcessor (`ScrapeProcessor.Process` and `ProgressReporter`) -/

/-- Which browser clients the processor was constructed with. -/
structure BrowserAvail where
  lightpanda : Bool
  chrome : Bool
deriving DecidableEq, Repr

/-- Outcome of the single browser call the processor makes
(`EvaluateScript` or `FetchPage`). -/
inductive BrowserOutcome where
  | ok (value : String)
  | err (msg : String)
deriving DecidableEq, Repr

/-- The percentage computed by `ProgressReporter.SetPageProgress`:
`(current * 100) / total` when `total > 0`, else 0. -/
def pageProgressPct (current total : Int) : Int :=
  if 0 < total then current * 100 / total else 0

/-- The body of `ScrapeProcessor.Process` after engine selection: the ordered
list of `(pct, message)` pairs handed to the progress callback, and the
returned result or error.  Mirrors the source's emission points:
`Report(10)`, `SetPageProgress(1, 1, "Fetching page")`, `Report(50)` on the
script path, then on success `Report(90)` and `Report(100)`. -/
def scrapeRun (req : JobRequest) (outcome : BrowserOutcome) :
    List (Int × String) × Except String String :=
  let trace := [((10 : Int), "Initializing browser"),
                (pageProgressPct 1 1, "[Page 1/1] Fetching page")]
  let trace := if req.script ≠ "" then trace ++ [(50, "Executing script")]
               else trace
  match outcome with
  | .err e => (trace, .error ("scraping failed: " ++ e))
  | .ok v =>
    (trace ++ [(90, "Processing result"), (100, "Job completed successfully")],
     .ok v)

/-- `ScrapeProcessor.Process`: engine selection, then the progress-reporting
run.  The per-attempt context deadline is summarised inside `outcome`. -/
def scrapeProcess (avail : BrowserAvail) (job : Job)
    (outcome : BrowserOutcome) : List (Int × String) × Except String String :=
  let req := job.request
  if req.engine = "chrome" then
    if !avail.chrome then ([], .error "chrome engine not available")
    else scrapeRun req outcome
  else if req.engine = "lightpanda" ∨ req.engine = "" then
    if !avail.lightpanda then ([], .error "lightpanda engine not available")
    else if req.proxy ≠ "" then
      ([], .error "proxy is only supported with chrome engine")
    else scrapeRun req outcome
  else ([], .error ("unknown engine: " ++ req.engine))

/-! ## Webhook dispatcher (`sendWebhook`) -/

/-- The headers set by `sendWebhook`.  The function receives only
`(jobID, webhookURL, status)` — the webhook secret is not among its inputs —
and sets exactly `Content-Type` and `X-Scrq-Event`. -/
def sendWebhookHeaders (status : String) : List (String × String) :=
  [("Content-Type", "application/json"),
   ("X-Scrq-Event", "job." ++ status)]

/-! ## HTTP surface (`internal/api/job_handler.go`) -/

/-- Response of the result endpoint `GET /scrq/jobs/:job_id/result`. -/
inductive ResultResponse where
  | notFound
  | conflict (message : String)
  | ok (jobID : String) (status : JobStatus) (result : Option String)
      (error : String)
deriving DecidableEq, Repr

/-- `JobHandler.GetJobResult`: 404 when the job is absent, 409 with
"Job not completed yet" unless the status is succeeded or failed, otherwise
the result payload. -/
def getJobResult (s : Store) (jobID : String) (now : Int) : ResultResponse :=
  match s.get jobID now with
  | none => .notFound
  | some job =>
    if job.status ≠ .succeeded ∧ job.status ≠ .failed then
      .conflict "Job not completed yet"
    else .ok job.id job.status job.result job.error

/-- The max-retries clamp in `JobHandler.CreateJob` (lines 101–107): it
applies only to the top-level `max_retries` body field, after `NewJob` has
already adopted the nested retry config. -/
def handlerSetMaxRetries (reqMaxRetries : Int) (job : Job) : Job :=
  if 0 < reqMaxRetries then
    let r := if 5 < reqMaxRetries then 5 else reqMaxRetries
    { job with maxRetries := r }
  else job

/-! ## RateLimiter (`internal/security/idempotency.go`, sliding window)

Timestamps are nanoseconds (`time.Time.After` is a strict comparison of the
monotonic clock).  One second is `10^9` ns; the default window is one
minute. -/

/-- One second in nanoseconds (the burst span hard-coded in `Allow`). -/
def oneSecondNs : Int := 1000000000

/-- One step of `RateLimiter.Allow` for a single client: prune entries at or
before `now - window`, deny when the pruned window has reached `limit`, deny
when the last second has reached `burstMax`, otherwise append `now`.  The
pruned list is stored back even on denial, as in the source. -/
def rlAllow (limit : Nat) (window : Int) (burstMax : Nat) (reqs : List Int)
    (now : Int) : Bool × List Int :=
  let valid := reqs.filter (fun t => now - window < t)
  if limit ≤ valid.length then (false, valid)
  else if burstMax ≤ (valid.filter (fun t => now - oneSecondNs < t)).length then
    (false, valid)
  else (true, valid ++ [now])

/-- Run `Allow` over a sequence of call instants for one client, returning
the instants at which the call returned true, in order. -/
def rlGrants (limit : Nat) (window : Int) (burstMax : Nat) :
    List Int → List Int → List Int
  | _, [] => []
  | reqs, now :: rest =>
    match rlAllow limit window burstMax reqs now with
    | (true, reqs') => now :: rlGrants limit window burstMax reqs' rest
    | (false, reqs') => rlGrants limit window burstMax reqs' rest

/-- Membership of an instant in the trailing span `(T - w, T]`. -/
def inSpan (w T g : Int) : Bool :=
  decide (T - w < g) && decide (g ≤ T)

/-! ## Concrete sample data for witnesses and counterexamples -/

/-- A plain scrape request: no overrides, idempotency key `key-1`. -/
def sampleReq : JobRequest :=
  { url := "https://example.com", engine := "", timeout := 0, script := ""
    proxy := "", notify := none, retry := none, idempotencyKey := "key-1"
    priority := 5, resultTTL := 0 }

/-- The job `NewJob` builds from `sampleReq` at time 1000. -/
def sampleJob : Job := newJob sampleReq "job-1" 1000

/-- `sampleJob` after two retries have been counted. -/
def sampleJobR2 : Job := { sampleJob with retryCount := 2 }

/-- `sampleJob` with a different message and the same id. -/
def sampleJobB : Job := { sampleJob with message := "replaced" }

/-- `sampleJob` already expired at time 50 (its TTL ended at 10). -/
def expiredJob : Job := { sampleJob with expiresAt := 10 }

/-- A store holding only `expiredJob`. -/
def expiredStore : Store := Store.empty.save expiredJob

/-- `sampleJob` already canceled. -/
def canceledJob : Job := { sampleJob with status := .canceled }

/-- A store holding only `canceledJob`. -/
def canceledStore : Store := Store.empty.save canceledJob

/-- A request whose nested retry config asks for 10 retries. -/
def bigRetryReq : JobRequest :=
  { sampleReq with retry := some { maxRetries := 10, retryDelay := 0 }
                   idempotencyKey := "" }

/-! ## Helper lemmas -/

/-- The doubling loop computes `d * 2 ^ k`. -/
theorem backoffLoop_eq (k : Nat) (d : Int) : backoffLoop k d = d * 2 ^ k := by
  induction k generalizing d with
  | zero => simp [backoffLoop]
  | succ n ih =>
    rw [backoffLoop, ih]
    ring

/-- Lookup after insertion of the same key. -/
theorem mapLookup_insert_self {α : Type} (m : List (String × α)) (k : String)
    (v : α) : mapLookup (mapInsert m k v) k = some v := by
  simp [mapLookup, mapInsert, List.find?]

/-- The page-progress report for page 1 of 1 computes 100 percent. -/
theorem pageProgressPct_one_one : pageProgressPct 1 1 = 100 := by decide

/-! ## C3: retry backoff arithmetic -/

/-- C3: when a retry is prepared under the default retry configuration
(base delay 5 s, backoff factor 2.0), the job enters status retrying with
retry count `r` and `nextRetryAt - now = min (5 * 2 ^ (r - 1)) 300`
seconds, for every `r ≥ 1`. -/
theorem prepareRetry_backoff (j : Job) (now r : Int)
    (hdefault : j.request.retry = none)
    (hcount : j.retryCount = r - 1) (hr : 1 ≤ r) :
    (j.prepareRetry now).retryCount = r ∧
    (j.prepareRetry now).status = .retrying ∧
    (j.prepareRetry now).nextRetryAt - now =
      min (defaultRetryDelay * 2 ^ (r - 1).toNat) maxRetryDelay := by
  have harg : (j.retryCount + 1 - 1).toNat = (r - 1).toNat := by omega
  refine ⟨?_, ?_, ?_⟩
  · simp only [Job.prepareRetry]
    omega
  · simp only [Job.prepareRetry]
  · simp only [Job.prepareRetry, hdefault, harg, backoffLoop_eq]
    generalize defaultRetryDelay * 2 ^ (r - 1).toNat = D
    rw [min_def]
    by_cases hD : maxRetryDelay < D
    · rw [if_pos hD, if_neg (by omega)]
      omega
    · rw [if_neg hD, if_pos (by omega)]
      omega

/-- Witness for C3 at `r = 3`: the third retry of a default-configured job
is scheduled 20 seconds out. -/
theorem prepareRetry_backoff_witness :
    (Job.prepareRetry sampleJobR2 1000).retryCount = 3 ∧
    (Job.prepareRetry sampleJobR2 1000).status = .retrying ∧
    (Job.prepareRetry sampleJobR2 1000).nextRetryAt - 1000 =
      min (defaultRetryDelay * 2 ^ ((3 : Int) - 1).toNat) maxRetryDelay :=
  prepareRetry_backoff sampleJobR2 1000 3 (by decide) (by decide) (by decide)

/-! ## C7: Store.Save and duplicate ids -/

/-- C7 counterexample: saving a second job with an already-present id does
not fail; it silently replaces the stored job. -/
theorem storeSave_duplicate_counterexample :
    mapLookup ((Store.empty.save sampleJob).save sampleJobB).jobs "job-1" =
      some sampleJobB ∧ sampleJobB ≠ sampleJob := by
  constructor
  · rfl
  · decide

/-- C7 amended: `Store.Save` always succeeds; it stores the job under its
id (replacing any existing job with that id) and, when the idempotency key
is non-empty, the key-to-id mapping. -/
theorem storeSave_overwrites (s : Store) (j : Job) :
    mapLookup (s.save j).jobs j.id = some j ∧
    (j.idempotencyKey ≠ "" →
      mapLookup (s.save j).idempotencyMap j.idempotencyKey = some j.id) := by
  constructor
  · exact mapLookup_insert_self _ _ _
  · intro hk
    simp only [Store.save]
    rw [if_pos hk]
    exact mapLookup_insert_self _ _ _

/-- Witness for C7 amended at `sampleJob` over the empty store. -/
theorem storeSave_overwrites_witness :
    mapLookup (Store.empty.save sampleJob).jobs "job-1" = some sampleJob ∧
    mapLookup (Store.empty.save sampleJob).idempotencyMap "key-1" =
      some "job-1" :=
  ⟨(storeSave_overwrites Store.empty sampleJob).1,
   (storeSave_overwrites Store.empty sampleJob).2 (by decide)⟩

/-! ## C8: retry-count bounds -/

/-- C8 counterexample: `NewJob` adopts a nested retry config max of 10
without any cap, so the stored job violates `max_retries ≤ 5`. -/
theorem newJob_maxRetries_counterexample :
    (newJob bigRetryReq "job-big" 1000).maxRetries = 10 ∧
    ¬ (newJob bigRetryReq "job-big" 1000).maxRetries ≤ 5 := by
  constructor
  · rfl
  · decide

/-- C8 amended: every job built by `NewJob` starts with
`0 = retry_count ≤ max_retries`, and the handler clamp caps the top-level
`max_retries` field at 5 — but `NewJob` itself applies no cap to the nested
retry config, so `max_retries ≤ 5` is not guaranteed. -/
theorem newJob_retry_bounds (req : JobRequest) (id : String) (now : Int)
    (mr : Int) (j : Job) :
    (newJob req id now).retryCount = 0 ∧
    (newJob req id now).retryCount ≤ (newJob req id now).maxRetries ∧
    (0 < mr → (handlerSetMaxRetries mr j).maxRetries ≤ 5) := by
  refine ⟨rfl, ?_, ?_⟩
  · show (0 : Int) ≤ _
    unfold newJob
    cases hc : req.retry with
    | none => simp [defaultMaxRetries]
    | some c =>
      simp only
      split
      · omega
      · simp [defaultMaxRetries]
  · intro hmr
    unfold handlerSetMaxRetries
    rw [if_pos hmr]
    split
    · simp
    · simp
      omega

/-- Witness for C8 amended: the handler clamps a top-level request for 7
retries down to at most 5. -/
theorem newJob_retry_bounds_witness :
    (newJob bigRetryReq "job-big" 1000).retryCount = 0 ∧
    (newJob bigRetryReq "job-big" 1000).retryCount ≤
      (newJob bigRetryReq "job-big" 1000).maxRetries ∧
    (handlerSetMaxRetries 7 sampleJob).maxRetries ≤ 5 :=
  ⟨(newJob_retry_bounds bigRetryReq "job-big" 1000 7 sampleJob).1,
   (newJob_retry_bounds bigRetryReq "job-big" 1000 7 sampleJob).2.1,
   (newJob_retry_bounds bigRetryReq "job-big" 1000 7 sampleJob).2.2 (by decide)⟩

/-! ## C9: webhook signature -/

/-- C9: the headers `sendWebhook` attaches.  They are exactly
`Content-Type` and `X-Scrq-Event`; no `X-Scrq-Signature` header is ever
produced (the dispatcher does not even receive the webhook secret). -/
theorem sendWebhook_no_signature (status : String) :
    (sendWebhookHeaders status).map Prod.fst =
      ["Content-Type", "X-Scrq-Event"] ∧
    "X-Scrq-Signature" ∉ (sendWebhookHeaders status).map Prod.fst := by
  constructor
  · rfl
  · rw [show (sendWebhookHeaders status).map Prod.fst =
        ["Content-Type", "X-Scrq-Event"] from rfl]
    decide

/-! ## C10: result endpoint and canceled jobs -/

/-- C10: for a stored job, `GetJobResult` answers Conflict
("Job not completed yet") whenever the status is canceled, and returns a
result payload only for succeeded or failed jobs. -/
theorem getJobResult_canceled (s : Store) (jobID : String) (now : Int)
    (job : Job) (h : s.get jobID now = some job) :
    (job.status = .canceled →
      getJobResult s jobID now = .conflict "Job not completed yet") ∧
    (∀ jid st res er, getJobResult s jobID now = .ok jid st res er →
      st = .succeeded ∨ st = .failed) := by
  constructor
  · intro hc
    simp only [getJobResult, h]
    have hcond : job.status ≠ JobStatus.succeeded ∧
        job.status ≠ JobStatus.failed := by
      rw [hc]
      constructor
      · intro hx
        cases hx
      · intro hx
        cases hx
    rw [if_pos hcond]
  · intro jid st res er hx
    simp only [getJobResult, h] at hx
    by_cases hcond : job.status ≠ .succeeded ∧ job.status ≠ .failed
    · rw [if_pos hcond] at hx
      exact ResultResponse.noConfusion hx
    · rw [if_neg hcond] at hx
      injection hx with h1 h2 h3 h4
      rw [← h2]
      rcases not_and_or.mp hcond with h1 | h1
      · exact Or.inl (not_not.mp h1)
      · exact Or.inr (not_not.mp h1)

/-- Witness for C10: a canceled stored job gets the Conflict answer. -/
theorem getJobResult_canceled_witness :
    getJobResult canceledStore "job-1" 1000 =
      .conflict "Job not completed yet" :=
  (getJobResult_canceled canceledStore "job-1" 1000 canceledJob rfl).1 rfl

/-! ## C4: expired jobs in store reads -/

/-- C4 counterexample: an expired job is reported not-found by `Get`, yet
`Store.List` still includes it in its snapshot. -/
theorem storeList_expired_counterexample :
    Job.isExpired expiredJob 50 = true ∧
    Store.get expiredStore "job-1" 50 = none ∧
    expiredJob ∈ Store.list expiredStore := by
  refine ⟨by decide, rfl, ?_⟩
  show expiredJob ∈ [expiredJob]
  exact List.mem_singleton.mpr rfl

/-- C4 amended: `Get` and `GetByIdempotencyKey` never return an expired
job, but `Store.List` performs no expiry filtering: every stored job,
expired or not, appears in the snapshot (expired jobs leave it only through
the hourly sweep or `Delete`). -/
theorem store_reads_respect_expiry (s : Store) (id key : String) (now : Int) :
    (∀ j, s.get id now = some j → j.isExpired now = false) ∧
    (∀ j, s.getByIdempotencyKey key now = some j → j.isExpired now = false) ∧
    (∀ p, p ∈ s.jobs → p.2 ∈ s.list) := by
  refine ⟨?_, ?_, ?_⟩
  · intro j hj
    unfold Store.get at hj
    cases hl : mapLookup s.jobs id with
    | none =>
      simp only [hl] at hj
      exact Option.noConfusion hj
    | some job =>
      simp only [hl] at hj
      by_cases he : job.isExpired now
      · rw [if_pos he] at hj
        cases hj
      · rw [if_neg he] at hj
        injection hj with hj
        rw [← hj]
        exact Bool.eq_false_iff.mpr he
  · intro j hj
    unfold Store.getByIdempotencyKey at hj
    cases hl : mapLookup s.idempotencyMap key with
    | none =>
      simp only [hl] at hj
      exact Option.noConfusion hj
    | some jid =>
      simp only [hl] at hj
      cases hl2 : mapLookup s.jobs jid with
      | none =>
        simp only [hl2] at hj
        exact Option.noConfusion hj
      | some job =>
        simp only [hl2] at hj
        by_cases he : job.isExpired now
        · rw [if_pos he] at hj
          cases hj
        · rw [if_neg he] at hj
          injection hj with hj
          rw [← hj]
          exact Bool.eq_false_iff.mpr he
  · intro p hp
    exact List.mem_map_of_mem Prod.snd hp

/-- Witness for C4 amended: a live stored job is returned by `Get` and is
non-expired, and it appears in the `List` snapshot. -/
theorem store_reads_respect_expiry_witness :
    Job.isExpired sampleJob 1000 = false ∧
    sampleJob ∈ Store.list (Store.empty.save sampleJob) :=
  ⟨(store_reads_respect_expiry (Store.empty.save sampleJob) "job-1" "key-1"
      1000).1 sampleJob rfl,
   (store_reads_respect_expiry (Store.empty.save sampleJob) "job-1" "key-1"
      1000).2.2 ("job-1", sampleJob) (List.mem_singleton.mpr rfl)⟩

/-! ## C5: progress monotonicity within an attempt -/

/-- C5 counterexample: a single successful lightpanda attempt emits the
progress percentages 10, 100, 90, 100: the page-progress report computes
`(1 * 100) / 1 = 100` before fetching, and progress then drops to 90. -/
theorem scrapeProcess_progress_counterexample :
    ((scrapeProcess ⟨true, true⟩ sampleJob (.ok "html")).1.map Prod.fst =
      [10, 100, 90, 100]) ∧
    ¬ List.Chain' (· ≤ ·)
      ((scrapeProcess ⟨true, true⟩ sampleJob (.ok "html")).1.map Prod.fst) := by
  have hseq : (scrapeProcess ⟨true, true⟩ sampleJob (.ok "html")).1.map
      Prod.fst = [10, 100, 90, 100] := rfl
  refine ⟨hseq, ?_⟩
  rw [hseq]
  intro hchain
  have h1 := (List.chain'_cons.mp hchain).2
  have hbad : (100 : Int) ≤ 90 := (List.chain'_cons.mp h1).1
  omega

/-- C5 amended: on the lightpanda success path the attempt emits exactly
10, 100, (50 when a script runs,) 90, 100; the sequence is not
non-decreasing, and monotonicity holds only once the premature
page-progress report (the second entry) is dropped. -/
theorem scrapeProcess_progress_sequence (avail : BrowserAvail) (job : Job)
    (v : String) (hengine : job.request.engine = "")
    (hproxy : job.request.proxy = "") (hlp : avail.lightpanda = true) :
    (scrapeProcess avail job (.ok v)).1.map Prod.fst =
      (if job.request.script = "" then [10, 100, 90, 100]
       else [10, 100, 50, 90, 100]) ∧
    List.Chain' (· ≤ ·)
      (((scrapeProcess avail job (.ok v)).1.map Prod.fst).eraseIdx 1) := by
  have hrun : scrapeProcess avail job (.ok v) = scrapeRun job.request (.ok v) := by
    unfold scrapeProcess
    rw [if_neg (by rw [hengine]; decide)]
    rw [if_pos (Or.inr hengine)]
    rw [hlp]
    rw [if_neg (by decide)]
    rw [if_neg (by rw [hproxy]; exact fun h => h rfl)]
  rw [hrun]
  by_cases hs : job.request.script = ""
  · rw [if_pos hs]
    simp [scrapeRun, hs, pageProgressPct_one_one, List.chain'_cons,
      List.eraseIdx]
  · rw [if_neg hs]
    simp [scrapeRun, hs, pageProgressPct_one_one, List.chain'_cons,
      List.eraseIdx]

/-- Witness for C5 amended at the sample job (no script). -/
theorem scrapeProcess_progress_sequence_witness :
    (scrapeProcess ⟨true, true⟩ sampleJob (.ok "html")).1.map Prod.fst =
      (if sampleJob.request.script = "" then [10, 100, 90, 100]
       else [10, 100, 50, 90, 100]) ∧
    List.Chain' (· ≤ ·)
      (((scrapeProcess ⟨true, true⟩ sampleJob (.ok "html")).1.map
        Prod.fst).eraseIdx 1) :=
  scrapeProcess_progress_sequence ⟨true, true⟩ sampleJob "html" rfl rfl rfl

/-! ## C2: idempotent enqueue -/

/-- After `Save`, the idempotency key of the saved job resolves to it. -/
theorem getByIdempotencyKey_save_self (s : Store) (j : Job) (now : Int)
    (hk : j.idempotencyKey ≠ "") (hlive : j.isExpired now = false) :
    (s.save j).getByIdempotencyKey j.idempotencyKey now = some j := by
  have h1 : mapLookup (s.save j).idempotencyMap j.idempotencyKey =
      some j.id := by
    simp only [Store.save]
    rw [if_pos hk]
    exact mapLookup_insert_self _ _ _
  have h2 : mapLookup (s.save j).jobs j.id = some j :=
    mapLookup_insert_self _ _ _
  simp only [Store.getByIdempotencyKey, h1, h2, hlive]
  rfl

/-- C2: a first `EnqueueWithIdempotency` call with a fresh non-empty key
stores and publishes the job once; a second call with the same key before
the job expires returns the stored job with the duplicate flag, leaves the
manager state — published messages included — unchanged, and both calls
yield the same job id. -/
theorem enqueueWithIdempotency_duplicate (m : ManagerState) (j j2 : Job)
    (now1 now2 : Int) (hk : j.idempotencyKey ≠ "")
    (hk2 : j2.idempotencyKey = j.idempotencyKey)
    (hfresh : m.store.getByIdempotencyKey j.idempotencyKey now1 = none)
    (hlive : j.isExpired now2 = false) :
    (m.enqueueWithIdempotency j now1).2.1 = j ∧
    (m.enqueueWithIdempotency j now1).2.2 = false ∧
    (m.enqueueWithIdempotency j now1).1.published = m.published ++ [j] ∧
    ((m.enqueueWithIdempotency j now1).1.enqueueWithIdempotency j2
      now2).2.1 = j ∧
    ((m.enqueueWithIdempotency j now1).1.enqueueWithIdempotency j2
      now2).2.2 = true ∧
    ((m.enqueueWithIdempotency j now1).1.enqueueWithIdempotency j2
      now2).1 = (m.enqueueWithIdempotency j now1).1 ∧
    ((m.enqueueWithIdempotency j now1).1.enqueueWithIdempotency j2
      now2).2.1.id = (m.enqueueWithIdempotency j now1).2.1.id := by
  have hr1 : m.enqueueWithIdempotency j now1 = (m.enqueue j, j, false) := by
    simp only [ManagerState.enqueueWithIdempotency]
    rw [if_pos hk]
    simp only [hfresh]
  have hkey : (m.enqueue j).store.getByIdempotencyKey j.idempotencyKey
      now2 = some j := by
    show (m.store.save j).getByIdempotencyKey j.idempotencyKey now2 = some j
    exact getByIdempotencyKey_save_self m.store j now2 hk hlive
  have hr2 : (m.enqueue j).enqueueWithIdempotency j2 now2 =
      (m.enqueue j, j, true) := by
    simp only [ManagerState.enqueueWithIdempotency, hk2]
    rw [if_pos hk]
    simp only [hkey]
  rw [hr1]
  refine ⟨rfl, rfl, rfl, ?_, ?_, ?_, ?_⟩
  · show ((m.enqueue j).enqueueWithIdempotency j2 now2).2.1 = j
    rw [hr2]
  · show ((m.enqueue j).enqueueWithIdempotency j2 now2).2.2 = true
    rw [hr2]
  · show ((m.enqueue j).enqueueWithIdempotency j2 now2).1 = m.enqueue j
    rw [hr2]
  · show ((m.enqueue j).enqueueWithIdempotency j2 now2).2.1.id = j.id
    rw [hr2]

/-- Witness for C2: two submissions with key `key-1` against a fresh
manager; the duplicate is detected and nothing is re-published. -/
theorem enqueueWithIdempotency_duplicate_witness :
    (ManagerState.initial.enqueueWithIdempotency sampleJob 1000).2.1 =
      sampleJob ∧
    (ManagerState.initial.enqueueWithIdempotency sampleJob 1000).2.2 =
      false ∧
    (ManagerState.initial.enqueueWithIdempotency
      sampleJob 1000).1.published = ManagerState.initial.published ++
        [sampleJob] ∧
    ((ManagerState.initial.enqueueWithIdempotency
      sampleJob 1000).1.enqueueWithIdempotency sampleJobB 1001).2.1 =
        sampleJob ∧
    ((ManagerState.initial.enqueueWithIdempotency
      sampleJob 1000).1.enqueueWithIdempotency sampleJobB 1001).2.2 =
        true ∧
    ((ManagerState.initial.enqueueWithIdempotency
      sampleJob 1000).1.enqueueWithIdempotency sampleJobB 1001).1 =
      (ManagerState.initial.enqueueWithIdempotency sampleJob 1000).1 ∧
    ((ManagerState.initial.enqueueWithIdempotency
      sampleJob 1000).1.enqueueWithIdempotency sampleJobB 1001).2.1.id =
      (ManagerState.initial.enqueueWithIdempotency sampleJob 1000).2.1.id :=
  enqueueWithIdempotency_duplicate ManagerState.initial sampleJob sampleJobB
    1000 1001 (by decide) rfl rfl (by decide)

/-! ## C1: cancellation versus the worker's terminal write -/

/-- C1, evaluated at the failing input: a queued job is picked up, an
external cancel lands while the processor runs (the canceled event is
emitted), and the worker's unconditional terminal write then replaces the
canonical canceled status with succeeded — the terminal write is not
suppressed. -/
theorem processMessage_cancel_overwritten :
    (((ManagerState.initial.enqueue sampleJob).processMessage sampleJob
        (.success "html") true 1001).1.store.get "job-1" 1001).map
      Job.status = some JobStatus.succeeded ∧
    ((ManagerState.initial.enqueue sampleJob).processMessage sampleJob
        (.success "html") true 1001).2 = Ack.ack ∧
    Event.mk "job-1" JobStatus.canceled 0 "Job canceled" ∈
      ((ManagerState.initial.enqueue sampleJob).processMessage sampleJob
        (.success "html") true 1001).1.events := by
  refine ⟨by decide, by decide, by decide⟩

/-! ## C6: rate limiter sliding-window bounds -/

/-- Unfolding of span membership. -/
theorem inSpan_iff (w T g : Int) : inSpan w T g = true ↔ T - w < g ∧ g ≤ T := by
  simp [inSpan]

/-- Invariant induction for `rlGrants`: starting from a window list that is
exactly the in-window grants so far (all past instants), every trailing
window of length `window` holds at most `limit` grants and every trailing
one-second span at most `burstMax`. -/
theorem rlGrants_span_bounds (limit : Nat) (window : Int) (burstMax : Nat)
    (hW : 0 < window) (hS : oneSecondNs ≤ window) :
    ∀ (times : List Int), ∀ (prev : Int) (G : List Int),
      List.Chain' (· ≤ ·) (prev :: times) →
      (∀ g ∈ G, g ≤ prev) →
      (∀ T, G.countP (inSpan window T) ≤ limit) →
      (∀ T, G.countP (inSpan oneSecondNs T) ≤ burstMax) →
      ∀ T,
        (G ++ rlGrants limit window burstMax
            (G.filter (fun g => decide (prev - window < g))) times).countP
          (inSpan window T) ≤ limit ∧
        (G ++ rlGrants limit window burstMax
            (G.filter (fun g => decide (prev - window < g))) times).countP
          (inSpan oneSecondNs T) ≤ burstMax := by
  intro times
  induction times with
  | nil =>
    intro prev G _ _ hcount hburst T
    simp only [rlGrants, List.append_nil]
    exact ⟨hcount T, hburst T⟩
  | cons now rest ih =>
    intro prev G hchain hG hcount hburst T
    have hpn : prev ≤ now := (List.chain'_cons.mp hchain).1
    have hchain2 : List.Chain' (· ≤ ·) (now :: rest) :=
      (List.chain'_cons.mp hchain).2
    have hG2 : ∀ g ∈ G, g ≤ now := fun g hg => le_trans (hG g hg) hpn
    have hval : (G.filter (fun g => decide (prev - window < g))).filter
        (fun t => decide (now - window < t)) =
        G.filter (fun g => decide (now - window < g)) := by
      rw [List.filter_filter]
      apply List.filter_congr
      intro a _
      by_cases h : now - window < a
      · rw [decide_eq_true h, decide_eq_true (show prev - window < a by omega)]
        rfl
      · rw [decide_eq_false h]
        simp
    have hallow : rlAllow limit window burstMax
        (G.filter (fun g => decide (prev - window < g))) now =
        (if limit ≤ (G.filter (fun g => decide (now - window < g))).length
         then (false, G.filter (fun g => decide (now - window < g)))
         else if burstMax ≤ ((G.filter (fun g =>
            decide (now - window < g))).filter (fun t =>
            decide (now - oneSecondNs < t))).length
         then (false, G.filter (fun g => decide (now - window < g)))
         else (true, G.filter (fun g => decide (now - window < g)) ++ [now])) := by
      simp only [rlAllow, hval]
    by_cases hA : limit ≤ (G.filter (fun g =>
        decide (now - window < g))).length
    · have hstep : rlGrants limit window burstMax
          (G.filter (fun g => decide (prev - window < g))) (now :: rest) =
          rlGrants limit window burstMax
            (G.filter (fun g => decide (now - window < g))) rest := by
        simp only [rlGrants, hallow, if_pos hA]
      rw [hstep]
      exact ih now G hchain2 hG2 hcount hburst T
    · by_cases hB : burstMax ≤ ((G.filter (fun g =>
          decide (now - window < g))).filter (fun t =>
          decide (now - oneSecondNs < t))).length
      · have hstep : rlGrants limit window burstMax
            (G.filter (fun g => decide (prev - window < g))) (now :: rest) =
            rlGrants limit window burstMax
              (G.filter (fun g => decide (now - window < g))) rest := by
          simp only [rlGrants, hallow, if_neg hA, if_pos hB]
        rw [hstep]
        exact ih now G hchain2 hG2 hcount hburst T
      · have hstep : rlGrants limit window burstMax
            (G.filter (fun g => decide (prev - window < g))) (now :: rest) =
            now :: rlGrants limit window burstMax
              (G.filter (fun g => decide (now - window < g)) ++ [now]) rest := by
          simp only [rlGrants, hallow, if_neg hA, if_neg hB]
        rw [hstep, List.append_cons]
        have hfilter2 : (G ++ [now]).filter (fun g =>
            decide (now - window < g)) =
            G.filter (fun g => decide (now - window < g)) ++ [now] := by
          have hnow : now - window < now := by omega
          rw [List.filter_append]
          simp [hnow]
        have hmem2 : ∀ g ∈ G ++ [now], g ≤ now := by
          intro g hg
          rcases List.mem_append.mp hg with h | h
          · exact hG2 g h
          · rw [List.mem_singleton.mp h]
        have hcount2 : ∀ S, (G ++ [now]).countP (inSpan window S) ≤ limit := by
          intro S
        -- moved below
          rw [List.countP_append]
          by_cases hT2 : inSpan window S now = true
          · have h1 : List.countP (inSpan window S) [now] = 1 := by
              simp [List.countP_cons, hT2]
            rw [h1]
            rw [inSpan_iff] at hT2
            have hmono : G.countP (inSpan window S) ≤
                G.countP (fun g => decide (now - window < g)) := by
              apply List.countP_mono_left
              intro g _ hx
              rw [inSpan_iff] at hx
              exact decide_eq_true (show now - window < g by omega)
            have hlen : G.countP (fun g => decide (now - window < g)) =
                (G.filter (fun g => decide (now - window < g))).length :=
              List.countP_eq_length_filter _ _
            omega
          · have h1 : List.countP (inSpan window S) [now] = 0 := by
              simp only [List.countP_cons, List.countP_nil]
              rw [if_neg]
              simpa using hT2
            rw [h1]
            have := hcount S
            omega
        have hburst2 : ∀ S, (G ++ [now]).countP (inSpan oneSecondNs S) ≤
            burstMax := by
          intro S
          rw [List.countP_append]
          by_cases hT2 : inSpan oneSecondNs S now = true
          · have h1 : List.countP (inSpan oneSecondNs S) [now] = 1 := by
              simp [List.countP_cons, hT2]
            rw [h1]
            rw [inSpan_iff] at hT2
            have hmono : G.countP (inSpan oneSecondNs S) ≤
                G.countP (fun g => decide (now - oneSecondNs < g) &&
                  decide (now - window < g)) := by
              apply List.countP_mono_left
              intro g _ hx
              rw [inSpan_iff] at hx
              rw [Bool.and_eq_true]
              exact ⟨decide_eq_true (show now - oneSecondNs < g by omega),
                decide_eq_true (show now - window < g by omega)⟩
            have hlen : G.countP (fun g => decide (now - oneSecondNs < g) &&
                decide (now - window < g)) =
                ((G.filter (fun g => decide (now - window < g))).filter
                  (fun t => decide (now - oneSecondNs < t))).length := by
              rw [List.filter_filter, List.countP_eq_length_filter]
            omega
          · have h1 : List.countP (inSpan oneSecondNs S) [now] = 0 := by
              simp only [List.countP_cons, List.countP_nil]
              rw [if_neg]
              simpa using hT2
            rw [h1]
            have := hburst S
            omega
        have hresult := ih now (G ++ [now]) hchain2 hmem2 hcount2 hburst2 T
        rw [hfilter2] at hresult
        exact hresult

/-- C6: for one client, under a monotone call clock and a window at least
one second long (the defaults are one minute and one second), any trailing
window of length `window` contains at most `limit` granted calls, and any
trailing one-second span contains at most `burstMax` granted calls. -/
theorem rateLimiter_allow_bounds (limit : Nat) (window : Int) (burstMax : Nat)
    (times : List Int) (hsorted : List.Chain' (· ≤ ·) times)
    (hS : oneSecondNs ≤ window) (T : Int) :
    (rlGrants limit window burstMax [] times).countP (inSpan window T) ≤
      limit ∧
    (rlGrants limit window burstMax [] times).countP
      (inSpan oneSecondNs T) ≤ burstMax := by
  have hW : 0 < window := by
    have : (0 : Int) < oneSecondNs := by norm_num [oneSecondNs]
    omega
  cases times with
  | nil =>
    constructor <;> simp [rlGrants]
  | cons t rest =>
    have hchain : List.Chain' (· ≤ ·) (t :: t :: rest) :=
      List.chain'_cons.mpr ⟨le_refl t, hsorted⟩
    have h := rlGrants_span_bounds limit window burstMax hW hS (t :: rest) t
      [] hchain (by intro g hg; cases hg) (by intro S; simp)
      (by intro S; simp) T
    simpa using h

/-- Witness for C6 with the default limits (100 per minute, burst 20) on a
three-call trace. -/
theorem rateLimiter_allow_bounds_witness :
    (rlGrants 100 60000000000 20 [] [0, 1000, 2000000000]).countP
      (inSpan 60000000000 2000000000) ≤ 100 ∧
    (rlGrants 100 60000000000 20 [] [0, 1000, 2000000000]).countP
      (inSpan oneSecondNs 2000000000) ≤ 20 :=
  rateLimiter_allow_bounds 100 60000000000 20 [0, 1000, 2000000000]
    (List.chain'_cons.mpr ⟨by decide,
      List.chain'_cons.mpr ⟨by decide, List.chain'_singleton _⟩⟩)
    (by decide) 2000000000

end Scrq
